import Mathlib

/-!
Verification of the reasoning-chain CLI (`src/cli.py`).

The development shallowly embeds the core control flow of the script:

* `make_api_call` (cli.py lines 101-132): the gateway call with its 3-attempt
  retry policy.  The network/parse outcome of each attempt is supplied by an
  oracle `Nat → Attempt`; a raised exception and a JSON-parse failure are both
  `Attempt.raise`, a successfully parsed JSON object is `Attempt.ok`.
* `process_step` (lines 154-175), `create_initial_messages` (lines 134-152),
  `append_message` (lines 83-99).
* `generate_response` (lines 177-207): the STEPPING / VERIFYING / FINALIZING
  generator.  The observable behaviour of the generator is collected in a
  `RunTrace`: the yielded (title, content) pairs, one record per gateway call
  (ghost-instrumented with the token budget, the final-answer flag, the number
  of 1-second sleeps and the returned object), the conversation length after
  each STEPPING iteration, the value of `step_count` when the verification
  prompt is appended, the number of executed loop iterations, and whether the
  run finished or died with a key-access fault (Python `KeyError`).

JSON objects are modelled by the three keys the script ever accesses
(`title`, `content`, `next_action`); each key is either absent (`none`),
present with JSON `null` (Python `None`), or present with a string.  Wall
clock elapsed times are not modelled; the 1-second retry sleeps are counted.
-/

/-- A JSON value as far as the script observes one: `null` (Python `None`)
or a string.  Other JSON values never occur in the records the script builds,
and for parsed responses only these two shapes are distinguishable by the
key accesses the script performs. -/
inductive JVal where
  | null
  | str (s : String)
deriving DecidableEq

/-- Python `f"... {v} ..."` interpolation of a JSON value. -/
def JVal.toStr : JVal → String
  | .null => "None"
  | .str s => s

/-- `json.dumps` of a single value (string escaping is immaterial here). -/
def JVal.dump : JVal → String
  | .null => "null"
  | .str s => "\"" ++ s ++ "\""

/-- A parsed JSON object, restricted to the three keys the script accesses.
`none` means the key is absent (access raises `KeyError`); `some v` means the
key is present with value `v`. -/
structure JObj where
  title : Option JVal
  content : Option JVal
  next_action : Option JVal
deriving DecidableEq

/-- `json.dumps` of a step record (keys in the insertion order of the error
record; the exact rendering never matters, only that one assistant message is
appended). -/
def JObj.dumps (o : JObj) : String :=
  "\x7b" ++ String.intercalate ", " (List.filterMap id
    [o.title.map (fun v => "\"title\": " ++ v.dump),
     o.content.map (fun v => "\"content\": " ++ v.dump),
     o.next_action.map (fun v => "\"next_action\": " ++ v.dump)]) ++ "\x7d"

/-- Outcome of one attempt of the gateway call: either the network call or
`json.loads` raised (with the exception message), or a JSON object was
parsed. -/
inductive Attempt where
  | raise (msg : String)
  | ok (o : JObj)
deriving DecidableEq

/-- One conversation message, `{"role": ..., "content": ...}`. -/
structure ChatMessage where
  role : String
  content : String
deriving DecidableEq

/-- cli.py line 55. -/
def MAX_STEPS : Nat := 25

/-- cli.py line 56. -/
def VERIFICATION_PROMPT : String :=
  "Before giving the final answer, please verify your result using a different method and explain any discrepancies."

/-- cli.py line 57. -/
def FINAL_ANSWER_PROMPT : String :=
  "Please provide the final answer based on your reasoning above."

/-- cli.py lines 59-81 (apostrophes and braces written with escapes). -/
def SYSTEM_MESSAGE : String :=
  "You are an expert AI assistant that explains your reasoning step by step. \n" ++
  "    For each step, provide a title that describes what you\x27re doing in that step, along with the content. \n" ++
  "    Decide if you need another step or if you\x27re ready to give the final answer. \n" ++
  "    Respond in JSON format with \x27title\x27, \x27content\x27, and \x27next_action\x27 (either \x27continue\x27 or \x27final_answer\x27) keys. \n" ++
  "    USE AS MANY REASONING STEPS AS NECESSARY TO ENSURE ACCURACY. \n" ++
  "    ALWAYS DOUBLE-CHECK YOUR RESULTS AND CONSIDER EDGE CASES. \n" ++
  "    IF YOU FIND A DISCREPANCY IN YOUR REASONING, EXPLAIN IT AND CORRECT IT. \n" ++
  "    BE AWARE OF YOUR LIMITATIONS AS AN LLM AND WHAT YOU CAN AND CANNOT DO. \n" ++
  "    IN YOUR REASONING, INCLUDE EXPLORATION OF ALTERNATIVE ANSWERS. \n" ++
  "    CONSIDER YOU MAY BE WRONG, AND IF YOU ARE WRONG IN YOUR REASONING, WHERE IT WOULD BE. \n" ++
  "    FULLY TEST ALL OTHER POSSIBILITIES. YOU CAN BE WRONG. \n" ++
  "    WHEN YOU SAY YOU ARE RE-EXAMINING, ACTUALLY RE-EXAMINE, AND USE ANOTHER APPROACH TO DO SO. \n" ++
  "    DO NOT JUST SAY YOU ARE RE-EXAMINING. USE AT LEAST 3 METHODS TO DERIVE THE ANSWER. USE BEST PRACTICES.\n" ++
  "    IF YOU ARE UNSURE OF SOMETHING, SAY SO. DO NOT MAKE UP FACTS.\n" ++
  "    Example of a valid JSON response:\n" ++
  "    ```json\n" ++
  "    \x7b\n" ++
  "        \"title\": \"Identifying Key Information\",\n" ++
  "        \"content\": \"To begin solving this problem, we need to carefully examine the given information and identify the crucial elements that will guide our solution process. This involves...\",\n" ++
  "        \"next_action\": \"continue\"\n" ++
  "    \x7d\n" ++
  "    ```\n"

/-- cli.py lines 83-99: `messages.append({"role": role, "content": content})`. -/
def append_message (messages : List ChatMessage) (role : String) (content : String) :
    List ChatMessage :=
  messages ++ [⟨role, content⟩]

/-- Result of one `make_api_call` invocation: the returned dictionary, the
number of attempts performed and the number of `time.sleep(1)` calls. -/
structure CallResult where
  result : JObj
  attempts : Nat
  sleeps : Nat
deriving DecidableEq

/-- cli.py lines 101-132.  `for attempt in range(3)` is unrolled: an attempt
that parses returns immediately; an attempt that raises either returns the
synthesized error record (when `attempt == 2`) or sleeps one second and
retries.  The Python call sites rely on the parameter default
`is_final_answer = False`; the Lean call sites pass `false` explicitly.
The `messages` argument only feeds the network request, whose outcome the
oracle supplies. -/
def make_api_call (oracle : Nat → Attempt) (messages : List ChatMessage)
    (max_tokens : Nat) (is_final_answer : Bool) : CallResult :=
  match oracle 0 with
  | .ok o => ⟨o, 1, 0⟩
  | .raise _ =>
    match oracle 1 with
    | .ok o => ⟨o, 2, 1⟩
    | .raise _ =>
      match oracle 2 with
      | .ok o => ⟨o, 3, 2⟩
      | .raise m =>
        ⟨⟨some (.str "Error"),
          some (.str ("Failed to generate " ++
            (if is_final_answer then "final answer" else "step") ++
            " after 3 attempts. Error: " ++ m)),
          if is_final_answer then some JVal.null else some (.str "final_answer")⟩,
         3, 2⟩

/-- cli.py lines 134-152. -/
def create_initial_messages (prompt : String) : List ChatMessage :=
  [⟨"system", SYSTEM_MESSAGE⟩,
   ⟨"user", prompt⟩,
   ⟨"assistant", "Thank you! I will now think step by step following my instructions, starting at the beginning after decomposing the problem."⟩]

/-- Ghost record of one gateway invocation: the token budget and final-answer
flag it was made with, the dictionary it returned, and how many 1-second
sleeps it performed. -/
structure GatewayCall where
  max_tokens : Nat
  is_final_answer : Bool
  result : JObj
  sleeps : Nat
deriving DecidableEq

/-- cli.py lines 154-175.  `step_count` is the string interpolated into the
title (the Python call sites pass an `int`, rendered by the f-string, or the
literal string `"Final Answer"`).  Returns the ghost call record and either
`.error key` — the `KeyError` raised by `step_data["title"]` — or the triple
`(step_data, title, messages)` the Python function returns (thinking time is
not modelled). -/
def process_step (oracle : Nat → Attempt) (messages : List ChatMessage)
    (step_count : String) :
    GatewayCall × Except String (JObj × String × List ChatMessage) :=
  let r := make_api_call oracle messages 300 false
  match r.result.title with
  | none => (⟨300, false, r.result, r.sleeps⟩, .error "title")
  | some t =>
    (⟨300, false, r.result, r.sleeps⟩,
     .ok (r.result, "Step " ++ step_count ++ ": " ++ JVal.toStr t,
          append_message messages "assistant" (JObj.dumps r.result)))

/-- Phase of the run a yielded tuple belongs to (ghost annotation):
a STEPPING iteration, the verification call, or the final-answer call. -/
inductive StepPhase where
  | step
  | verification
  | final
deriving DecidableEq

/-- One tuple yielded by the generator, ghost-annotated with its phase and the
step dictionary it was built from.  `title` and `content` are exactly the
first two components of the Python `yield`. -/
structure YieldRec where
  phase : StepPhase
  title : String
  content : JVal
  data : JObj
deriving DecidableEq

/-- Ghost accumulator of the STEPPING/VERIFYING loop of `generate_response`:
everything yielded so far, every gateway call so far, `len(messages)` right
right after `process_step` in each STEPPING iteration, `step_count` at
the moment the verification prompt is appended, and the number of executed
loop-body iterations. -/
structure LoopAcc where
  yields : List YieldRec
  calls : List GatewayCall
  stepLens : List Nat
  verifStepCount : Option Nat
  iters : Nat
deriving DecidableEq

/-- Result of the `while True` loop of `generate_response` (lines 193-203):
either a `KeyError` escaped (naming the missing key), or the loop exited via
`break` after the verification step, carrying the exit value of `step_count`,
the next gateway-call index and the conversation. -/
inductive LoopRes where
  | fault (acc : LoopAcc) (key : String)
  | exit (acc : LoopAcc) (verif_sc : Nat) (callIdx : Nat)
      (messages : List ChatMessage)
deriving DecidableEq

/-- The accumulator carried by a loop result. -/
def LoopRes.acc : LoopRes → LoopAcc
  | .fault a _ => a
  | .exit a _ _ _ => a

/-- How the run ended: the generator was exhausted normally, or a `KeyError`
on the named key propagated out of it. -/
inductive RunOutcome where
  | done
  | keyError (key : String)
deriving DecidableEq

/-- The observable behaviour of one `generate_response` run. -/
structure RunTrace where
  yields : List YieldRec
  calls : List GatewayCall
  stepLens : List Nat
  verifStepCount : Option Nat
  iters : Nat
  outcome : RunOutcome
deriving DecidableEq

/-- cli.py lines 193-203, the `while True` loop.  The environment
`env : Nat → Nat → Attempt` gives, for each gateway invocation index and each
attempt index, the outcome of that attempt.  Each loop iteration: run
`process_step` (which can raise `KeyError("title")`), evaluate
`step_data["content"]` for the `yield` (can raise `KeyError("content")`),
evaluate `step_data["next_action"]` for the termination test (can raise
`KeyError("next_action")`); when `next_action == "final_answer"` or
`step_count >= MAX_STEPS`, append the verification prompt, run the
verification `process_step`, yield it and `break`; otherwise loop with
`step_count + 1`. -/
def gen_loop (env : Nat → Nat → Attempt) (callIdx : Nat)
    (messages : List ChatMessage) (step_count : Nat) (acc : LoopAcc) : LoopRes :=
  let ps := process_step (env callIdx) messages (toString step_count)
  match ps.2 with
  | .error k =>
    .fault ⟨acc.yields, acc.calls ++ [ps.1], acc.stepLens,
            acc.verifStepCount, acc.iters + 1⟩ k
  | .ok (step_data, title, messages1) =>
    match step_data.content with
    | none =>
      .fault ⟨acc.yields, acc.calls ++ [ps.1],
              acc.stepLens ++ [messages1.length],
              acc.verifStepCount, acc.iters + 1⟩ "content"
    | some c =>
      match step_data.next_action with
      | none =>
        .fault ⟨acc.yields ++ [⟨.step, title, c, step_data⟩],
                acc.calls ++ [ps.1], acc.stepLens ++ [messages1.length],
                acc.verifStepCount, acc.iters + 1⟩ "next_action"
      | some na =>
        if h : na = JVal.str "final_answer" ∨ MAX_STEPS ≤ step_count then
          let messages2 := append_message messages1 "user" VERIFICATION_PROMPT
          let vs := process_step (env (callIdx + 1)) messages2
            (toString (step_count + 1))
          match vs.2 with
          | .error k =>
            .fault ⟨acc.yields ++ [⟨.step, title, c, step_data⟩],
                    acc.calls ++ [ps.1, vs.1],
                    acc.stepLens ++ [messages1.length],
                    some step_count, acc.iters + 1⟩ k
          | .ok (vdata, vtitle, messages3) =>
            match vdata.content with
            | none =>
              .fault ⟨acc.yields ++ [⟨.step, title, c, step_data⟩],
                      acc.calls ++ [ps.1, vs.1],
                      acc.stepLens ++ [messages1.length],
                      some step_count, acc.iters + 1⟩ "content"
            | some vc =>
              .exit ⟨acc.yields ++ [⟨.step, title, c, step_data⟩,
                       ⟨.verification, vtitle, vc, vdata⟩],
                     acc.calls ++ [ps.1, vs.1],
                     acc.stepLens ++ [messages1.length],
                     some step_count, acc.iters + 1⟩
                step_count (callIdx + 2) messages3
        else
          gen_loop env (callIdx + 1) messages1 (step_count + 1)
            ⟨acc.yields ++ [⟨.step, title, c, step_data⟩],
             acc.calls ++ [ps.1], acc.stepLens ++ [messages1.length],
             acc.verifStepCount, acc.iters + 1⟩
termination_by MAX_STEPS + 1 - step_count
decreasing_by
  simp only [not_or, not_le] at h
  omega

/-- cli.py lines 177-207: `generate_response`.  After the loop, append the
final-answer prompt and run `process_step(messages, "Final Answer")`; its
`yield` evaluates `final_data["content"]`. -/
def generate_response (env : Nat → Nat → Attempt) (prompt : String) : RunTrace :=
  let messages := create_initial_messages prompt
  match gen_loop env 0 messages 1 ⟨[], [], [], none, 0⟩ with
  | .fault acc k =>
    ⟨acc.yields, acc.calls, acc.stepLens, acc.verifStepCount, acc.iters,
     .keyError k⟩
  | .exit acc _vsc callIdx messages2 =>
    let messages3 := append_message messages2 "user" FINAL_ANSWER_PROMPT
    let fs := process_step (env callIdx) messages3 "Final Answer"
    match fs.2 with
    | .error k =>
      ⟨acc.yields, acc.calls ++ [fs.1], acc.stepLens, acc.verifStepCount,
       acc.iters, .keyError k⟩
    | .ok (fdata, ftitle, _messages4) =>
      match fdata.content with
      | none =>
        ⟨acc.yields, acc.calls ++ [fs.1], acc.stepLens, acc.verifStepCount,
         acc.iters, .keyError "content"⟩
      | some fc =>
        ⟨acc.yields ++ [⟨.final, ftitle, fc, fdata⟩], acc.calls ++ [fs.1],
         acc.stepLens, acc.verifStepCount, acc.iters, .done⟩

/-- A parsed response carries all three keys the script may access (the
`StepRecord` contract of the spec). -/
def wellFormed (o : JObj) : Prop :=
  o.title ≠ none ∧ o.content ≠ none ∧ o.next_action ≠ none

/-- Every successfully parsed response of the environment is `StepRecord`
shaped. -/
def wellFormedEnv (env : Nat → Nat → Attempt) : Prop :=
  ∀ c a o, env c a = Attempt.ok o → wellFormed o

/-- The record synthesized by `make_api_call` after the third failed attempt
(cli.py lines 130-131), as a function of the purpose flag and the message of
the third exception. -/
def error_record (is_final_answer : Bool) (m : String) : JObj :=
  ⟨some (.str "Error"),
   some (.str ("Failed to generate " ++
     (if is_final_answer then "final answer" else "step") ++
     " after 3 attempts. Error: " ++ m)),
   if is_final_answer then some JVal.null else some (.str "final_answer")⟩

/-- The response of the first mock-gateway scenario of the spec:
`{"title":"Compute","content":"2+2=4","next_action":"final_answer"}`. -/
def finalResp : JObj :=
  ⟨some (.str "Compute"), some (.str "2+2=4"), some (.str "final_answer")⟩

/-- A gateway whose every attempt parses `finalResp`. -/
def envOk : Nat → Nat → Attempt := fun _ _ => .ok finalResp

/-- A gateway response that always asks to continue. -/
def contResp : JObj :=
  ⟨some (.str "Explore"), some (.str "thinking"), some (.str "continue")⟩

/-- A gateway whose every attempt parses `contResp` (never self-terminates,
so the run hits the step cap). -/
def envCont : Nat → Nat → Attempt := fun _ _ => .ok contResp

/-- A gateway whose every attempt raises. -/
def envRaise : Nat → Nat → Attempt := fun _ _ => .raise "boom"

/-- A gateway whose every attempt parses an object with no `title` key. -/
def envNoTitle : Nat → Nat → Attempt :=
  fun _ _ => .ok ⟨none, some (.str "x"), some (.str "continue")⟩

theorem make_api_call_attempts (oracle : Nat → Attempt) (messages : List ChatMessage)
    (max_tokens : Nat) (is_final_answer : Bool) :
    (make_api_call oracle messages max_tokens is_final_answer).attempts ≤ 3 ∧
    (make_api_call oracle messages max_tokens is_final_answer).sleeps + 1 =
      (make_api_call oracle messages max_tokens is_final_answer).attempts := by
  unfold make_api_call
  cases oracle 0 <;> try simp
  cases oracle 1 <;> try simp
  cases oracle 2 <;> simp

theorem make_api_call_all_raise (oracle : Nat → Attempt) (messages : List ChatMessage)
    (max_tokens : Nat) (is_final_answer : Bool) (m0 m1 m2 : String)
    (h0 : oracle 0 = .raise m0) (h1 : oracle 1 = .raise m1)
    (h2 : oracle 2 = .raise m2) :
    make_api_call oracle messages max_tokens is_final_answer =
      ⟨error_record is_final_answer m2, 3, 2⟩ := by
  unfold make_api_call
  rw [h0, h1, h2]
  rfl

theorem make_api_call_cases (oracle : Nat → Attempt) (messages : List ChatMessage)
    (max_tokens : Nat) (is_final_answer : Bool) :
    (∃ a, a < 3 ∧
      oracle a = .ok (make_api_call oracle messages max_tokens is_final_answer).result) ∨
    (∃ m, oracle 2 = .raise m ∧
      make_api_call oracle messages max_tokens is_final_answer =
        ⟨error_record is_final_answer m, 3, 2⟩) := by
  cases h0 : oracle 0 with
  | ok o => exact Or.inl ⟨0, by omega, by simp [make_api_call, h0]⟩
  | raise m0 =>
    cases h1 : oracle 1 with
    | ok o => exact Or.inl ⟨1, by omega, by simp [make_api_call, h0, h1]⟩
    | raise m1 =>
      cases h2 : oracle 2 with
      | ok o => exact Or.inl ⟨2, by omega, by simp [make_api_call, h0, h1, h2]⟩
      | raise m2 =>
        exact Or.inr ⟨m2, rfl, by simp [make_api_call, h0, h1, h2, error_record]⟩

theorem error_record_wellFormed (is_final_answer : Bool) (m : String) :
    wellFormed (error_record is_final_answer m) := by
  cases is_final_answer <;> simp [error_record, wellFormed]

theorem make_api_call_wf (oracle : Nat → Attempt) (messages : List ChatMessage)
    (max_tokens : Nat) (is_final_answer : Bool)
    (h : ∀ a o, oracle a = .ok o → wellFormed o) :
    wellFormed (make_api_call oracle messages max_tokens is_final_answer).result := by
  rcases make_api_call_cases oracle messages max_tokens is_final_answer with
    ⟨a, _, ha⟩ | ⟨m, _, he⟩
  · exact h a _ ha
  · rw [he]
    exact error_record_wellFormed is_final_answer m

theorem process_step_call (oracle : Nat → Attempt) (messages : List ChatMessage)
    (step_count : String) :
    (process_step oracle messages step_count).1 =
      ⟨300, false, (make_api_call oracle messages 300 false).result,
       (make_api_call oracle messages 300 false).sleeps⟩ := by
  cases ht : (make_api_call oracle messages 300 false).result.title <;>
    simp [process_step, ht]

theorem process_step_res_ok (oracle : Nat → Attempt) (messages : List ChatMessage)
    (step_count : String) (d : JObj) (t : String) (m1 : List ChatMessage)
    (h : (process_step oracle messages step_count).2 = .ok (d, t, m1)) :
    d = (make_api_call oracle messages 300 false).result ∧
    (∃ tt, d.title = some tt ∧
      t = "Step " ++ step_count ++ ": " ++ JVal.toStr tt) ∧
    m1 = append_message messages "assistant" (JObj.dumps d) := by
  cases ht : (make_api_call oracle messages 300 false).result.title with
  | none => simp [process_step, ht] at h
  | some tt =>
    simp [process_step, ht] at h
    obtain ⟨hd, ht2, hm⟩ := h
    subst hd
    exact ⟨rfl, ⟨tt, ht, ht2.symm⟩, hm.symm⟩

theorem process_step_wf_ok (oracle : Nat → Attempt) (messages : List ChatMessage)
    (step_count : String)
    (hwf : wellFormed (make_api_call oracle messages 300 false).result) :
    ∃ tt, (make_api_call oracle messages 300 false).result.title = some tt ∧
      (process_step oracle messages step_count).2 =
        .ok ((make_api_call oracle messages 300 false).result,
             "Step " ++ step_count ++ ": " ++ JVal.toStr tt,
             append_message messages "assistant"
               (JObj.dumps (make_api_call oracle messages 300 false).result)) := by
  obtain ⟨h1, _, _⟩ := hwf
  cases ht : (make_api_call oracle messages 300 false).result.title with
  | none => exact absurd ht h1
  | some tt => exact ⟨tt, rfl, by simp [process_step, ht]⟩


theorem gen_loop_bounds (env : Nat → Nat → Attempt) :
    ∀ (fuel step_count : Nat), MAX_STEPS + 1 - step_count ≤ fuel →
      ∀ callIdx messages acc, step_count ≤ MAX_STEPS →
      ((gen_loop env callIdx messages step_count acc).acc.iters ≤
        acc.iters + (MAX_STEPS + 1 - step_count)) ∧
      (∀ v, (gen_loop env callIdx messages step_count acc).acc.verifStepCount = some v →
        acc.verifStepCount = some v ∨ v ≤ MAX_STEPS) := by
  intro fuel
  induction fuel with
  | zero =>
    intro s hfs c m acc hs
    exfalso
    simp only [MAX_STEPS] at hfs hs
    omega
  | succ n ih =>
    intro s hfs c m acc hs
    rw [gen_loop.eq_def]
    cases hps : (process_step (env c) m (toString s)).2 with
    | error k =>
      simp only [hps, LoopRes.acc]
      refine ⟨by simp only [MAX_STEPS] at hs ⊢; omega, fun v hv => Or.inl hv⟩
    | ok trip =>
      obtain ⟨d, t, m3⟩ := trip
      cases hc : d.content with
      | none =>
        simp only [hps, hc, LoopRes.acc]
        refine ⟨by simp only [MAX_STEPS] at hs ⊢; omega, fun v hv => Or.inl hv⟩
      | some cv =>
        cases hna : d.next_action with
        | none =>
          simp only [hps, hc, hna, LoopRes.acc]
          refine ⟨by simp only [MAX_STEPS] at hs ⊢; omega, fun v hv => Or.inl hv⟩
        | some na =>
          by_cases hcond : na = JVal.str "final_answer" ∨ MAX_STEPS ≤ s
          · cases hvs : (process_step (env (c + 1))
                (append_message m3 "user" VERIFICATION_PROMPT) (toString (s + 1))).2 with
            | error k =>
              simp only [hps, hc, hna, dif_pos hcond, hvs, LoopRes.acc]
              refine ⟨by simp only [MAX_STEPS] at hs ⊢; omega, fun v hv => ?_⟩
              right
              obtain rfl : s = v := by simpa using hv
              exact hs
            | ok vtrip =>
              obtain ⟨vd, vt, m4⟩ := vtrip
              cases hvc : vd.content with
              | none =>
                simp only [hps, hc, hna, dif_pos hcond, hvs, hvc, LoopRes.acc]
                refine ⟨by simp only [MAX_STEPS] at hs ⊢; omega, fun v hv => ?_⟩
                right
                obtain rfl : s = v := by simpa using hv
                exact hs
              | some vcv =>
                simp only [hps, hc, hna, dif_pos hcond, hvs, hvc, LoopRes.acc]
                refine ⟨by simp only [MAX_STEPS] at hs ⊢; omega, fun v hv => ?_⟩
                right
                obtain rfl : s = v := by simpa using hv
                exact hs
          · simp only [hps, hc, hna, dif_neg hcond]
            have hslt : s < MAX_STEPS := by
              rcases not_or.mp hcond with ⟨-, h2⟩
              omega
            have ih2 := ih (s + 1) (by omega) (c + 1) m3
              ⟨acc.yields ++ [⟨StepPhase.step, t, cv, d⟩],
               acc.calls ++ [(process_step (env c) m (toString s)).1],
               acc.stepLens ++ [m3.length], acc.verifStepCount, acc.iters + 1⟩
              (by omega)
            refine ⟨le_trans ih2.1 (by simp only [MAX_STEPS] at hslt ⊢; omega),
              fun v hv => ih2.2 v hv⟩

theorem range_map_shift (L n : Nat) :
    (List.range (n + 1)).map (fun i => L + 1 + i) =
      (L + 1) :: (List.range n).map (fun i => L + 1 + 1 + i) := by
  rw [List.range_succ_eq_map, List.map_cons, List.map_map]
  refine congrArg₂ _ (by omega) ?_
  refine List.map_congr_left ?_
  intro a _
  simp only [Function.comp_apply]
  omega

theorem gen_loop_stepLens (env : Nat → Nat → Attempt) :
    ∀ (fuel step_count : Nat), MAX_STEPS + 1 - step_count ≤ fuel →
      ∀ callIdx messages acc, step_count ≤ MAX_STEPS →
      ∃ n, (gen_loop env callIdx messages step_count acc).acc.stepLens =
        acc.stepLens ++ (List.range n).map (fun i => messages.length + 1 + i) := by
  intro fuel
  induction fuel with
  | zero =>
    intro s hfs c m acc hs
    exfalso
    simp only [MAX_STEPS] at hfs hs
    omega
  | succ n ih =>
    intro s hfs c m acc hs
    rw [gen_loop.eq_def]
    cases hps : (process_step (env c) m (toString s)).2 with
    | error k =>
      exact ⟨0, by simp [hps, LoopRes.acc]⟩
    | ok trip =>
      obtain ⟨d, t, m3⟩ := trip
      have hm3 : m3.length = m.length + 1 := by
        obtain ⟨-, -, hm⟩ := process_step_res_ok (env c) m (toString s) d t m3 hps
        simp [hm, append_message]
      cases hc : d.content with
      | none =>
        exact ⟨1, by simp [hps, hc, LoopRes.acc, hm3, show List.range 1 = [0] from rfl]⟩
      | some cv =>
        cases hna : d.next_action with
        | none =>
          exact ⟨1, by simp [hps, hc, hna, LoopRes.acc, hm3, show List.range 1 = [0] from rfl]⟩
        | some na =>
          by_cases hcond : na = JVal.str "final_answer" ∨ MAX_STEPS ≤ s
          · cases hvs : (process_step (env (c + 1))
                (append_message m3 "user" VERIFICATION_PROMPT) (toString (s + 1))).2 with
            | error k =>
              exact ⟨1, by simp [hps, hc, hna, dif_pos hcond, hvs, LoopRes.acc, hm3, show List.range 1 = [0] from rfl]⟩
            | ok vtrip =>
              obtain ⟨vd, vt, m4⟩ := vtrip
              cases hvc : vd.content with
              | none =>
                exact ⟨1, by simp [hps, hc, hna, dif_pos hcond, hvs, hvc, LoopRes.acc, hm3, show List.range 1 = [0] from rfl]⟩
              | some vcv =>
                exact ⟨1, by simp [hps, hc, hna, dif_pos hcond, hvs, hvc, LoopRes.acc, hm3, show List.range 1 = [0] from rfl]⟩
          · simp only [hps, hc, hna, dif_neg hcond]
            have hslt : s < MAX_STEPS := by
              rcases not_or.mp hcond with ⟨-, h2⟩
              omega
            obtain ⟨k, hk⟩ := ih (s + 1) (by omega) (c + 1) m3
              ⟨acc.yields ++ [⟨StepPhase.step, t, cv, d⟩],
               acc.calls ++ [(process_step (env c) m (toString s)).1],
               acc.stepLens ++ [m3.length], acc.verifStepCount, acc.iters + 1⟩
              (by omega)
            refine ⟨k + 1, ?_⟩
            rw [hk]
            simp only [hm3, range_map_shift m.length k]
            simp [List.append_assoc]

theorem gen_loop_wf_shape (env : Nat → Nat → Attempt) (hwf : wellFormedEnv env) :
    ∀ (fuel step_count : Nat), MAX_STEPS + 1 - step_count ≤ fuel →
      ∀ callIdx messages acc, step_count ≤ MAX_STEPS →
      ∃ acc2 v ci2 ms2 ys vY,
        gen_loop env callIdx messages step_count acc = LoopRes.exit acc2 v ci2 ms2 ∧
        acc2.yields = acc.yields ++ ys ++ [vY] ∧
        (∀ y ∈ ys, y.phase = StepPhase.step) ∧
        ys.length + step_count = v + 1 ∧
        vY.phase = StepPhase.verification ∧
        (∃ tt, vY.data.title = some tt ∧
          vY.title = "Step " ++ toString (v + 1) ++ ": " ++ JVal.toStr tt) := by
  intro fuel
  induction fuel with
  | zero =>
    intro s hfs c m acc hs
    exfalso
    simp only [MAX_STEPS] at hfs hs
    omega
  | succ n ih =>
    intro s hfs c m acc hs
    have hwfc : wellFormed (make_api_call (env c) m 300 false).result :=
      make_api_call_wf (env c) m 300 false (fun a o ha => hwf c a o ha)
    rw [gen_loop.eq_def]
    cases hps : (process_step (env c) m (toString s)).2 with
    | error k =>
      exfalso
      obtain ⟨tt, -, hok⟩ := process_step_wf_ok (env c) m (toString s) hwfc
      rw [hps] at hok
      exact Except.noConfusion hok
    | ok trip =>
      obtain ⟨d, t, m3⟩ := trip
      obtain ⟨hd, ⟨tt0, htt0, ht0⟩, hm⟩ :=
        process_step_res_ok (env c) m (toString s) d t m3 hps
      have hdwf : wellFormed d := hd ▸ hwfc
      cases hc : d.content with
      | none => exact absurd hc hdwf.2.1
      | some cv =>
        cases hna : d.next_action with
        | none => exact absurd hna hdwf.2.2
        | some na =>
          by_cases hcond : na = JVal.str "final_answer" ∨ MAX_STEPS ≤ s
          · have hwfv : wellFormed (make_api_call (env (c + 1))
                (append_message m3 "user" VERIFICATION_PROMPT) 300 false).result :=
              make_api_call_wf _ _ 300 false (fun a o ha => hwf (c + 1) a o ha)
            cases hvs : (process_step (env (c + 1))
                (append_message m3 "user" VERIFICATION_PROMPT) (toString (s + 1))).2 with
            | error k =>
              exfalso
              obtain ⟨tt, -, hok⟩ := process_step_wf_ok (env (c + 1))
                (append_message m3 "user" VERIFICATION_PROMPT) (toString (s + 1)) hwfv
              rw [hvs] at hok
              exact Except.noConfusion hok
            | ok vtrip =>
              obtain ⟨vd, vt, m4⟩ := vtrip
              obtain ⟨hvd, ⟨vtt, hvtt, hvt⟩, hvm⟩ :=
                process_step_res_ok (env (c + 1))
                  (append_message m3 "user" VERIFICATION_PROMPT)
                  (toString (s + 1)) vd vt m4 hvs
              have hvdwf : wellFormed vd := hvd ▸ hwfv
              cases hvc : vd.content with
              | none => exact absurd hvc hvdwf.2.1
              | some vcv =>
                refine ⟨⟨acc.yields ++ [⟨StepPhase.step, t, cv, d⟩,
                    ⟨StepPhase.verification, vt, vcv, vd⟩],
                  acc.calls ++ [(process_step (env c) m (toString s)).1,
                    (process_step (env (c + 1))
                      (append_message m3 "user" VERIFICATION_PROMPT)
                      (toString (s + 1))).1],
                  acc.stepLens ++ [m3.length], some s, acc.iters + 1⟩,
                  s, c + 2, m4, [⟨StepPhase.step, t, cv, d⟩],
                  ⟨StepPhase.verification, vt, vcv, vd⟩, ?_, ?_, ?_, ?_, rfl, ?_⟩
                · simp only [hps, hc, hna, dif_pos hcond, hvs, hvc]
                · simp
                · intro y hy
                  simp at hy
                  rw [hy]
                · simp only [List.length_singleton]
                  omega
                · exact ⟨vtt, hvtt, hvt⟩
          · simp only [hps, hc, hna, dif_neg hcond]
            have hslt : s < MAX_STEPS := by
              rcases not_or.mp hcond with ⟨-, h2⟩
              omega
            obtain ⟨acc2, v, ci2, ms2, ys, vY, hloop, hyields, hsteps, hlen, hvph, htitle⟩ :=
              ih (s + 1) (by omega) (c + 1) m3
                ⟨acc.yields ++ [⟨StepPhase.step, t, cv, d⟩],
                 acc.calls ++ [(process_step (env c) m (toString s)).1],
                 acc.stepLens ++ [m3.length], acc.verifStepCount, acc.iters + 1⟩
                (by omega)
            refine ⟨acc2, v, ci2, ms2, ⟨StepPhase.step, t, cv, d⟩ :: ys, vY,
              hloop, ?_, ?_, ?_, hvph, htitle⟩
            · rw [hyields]
              simp
            · intro y hy
              rcases List.mem_cons.mp hy with rfl | hy2
              · rfl
              · exact hsteps y hy2
            · simp only [List.length_cons]
              omega

/-- The ghost fields of the trace other than `yields`/`calls`/`outcome` are
exactly those of the loop accumulator: the FINALIZING part never touches
them. -/
theorem generate_response_ghost (env : Nat → Nat → Attempt) (prompt : String) :
    (generate_response env prompt).stepLens =
      (gen_loop env 0 (create_initial_messages prompt) 1 ⟨[], [], [], none, 0⟩).acc.stepLens ∧
    (generate_response env prompt).verifStepCount =
      (gen_loop env 0 (create_initial_messages prompt) 1 ⟨[], [], [], none, 0⟩).acc.verifStepCount ∧
    (generate_response env prompt).iters =
      (gen_loop env 0 (create_initial_messages prompt) 1 ⟨[], [], [], none, 0⟩).acc.iters := by
  simp only [generate_response]
  cases hr : gen_loop env 0 (create_initial_messages prompt) 1 ⟨[], [], [], none, 0⟩ with
  | fault acc k => simp [LoopRes.acc]
  | exit acc v ci ms =>
    simp only [LoopRes.acc]
    cases hfs : (process_step (env ci)
        (append_message ms "user" FINAL_ANSWER_PROMPT) "Final Answer").2 with
    | error k => simp [hfs]
    | ok ftrip =>
      obtain ⟨fd, ft, m4⟩ := ftrip
      cases hfc : fd.content with
      | none => simp [hfs, hfc]
      | some fc => simp [hfs, hfc]

/-- Under the `StepRecord` contract, every run finishes: the yielded sequence
is some STEPPING steps, then exactly one verification step (numbered one past
the last STEPPING step), then the FINALIZING step, and the generator is
exhausted normally. -/
theorem generate_response_wf_shape (env : Nat → Nat → Attempt)
    (hwf : wellFormedEnv env) (prompt : String) :
    ∃ ys vY fY,
      (generate_response env prompt).yields = ys ++ [vY, fY] ∧
      (∀ y ∈ ys, y.phase = StepPhase.step) ∧
      vY.phase = StepPhase.verification ∧
      (∃ tt, vY.data.title = some tt ∧
        vY.title = "Step " ++ toString (ys.length + 1) ++ ": " ++ JVal.toStr tt) ∧
      fY.phase = StepPhase.final ∧
      (generate_response env prompt).outcome = RunOutcome.done := by
  obtain ⟨acc2, v, ci2, ms2, ys, vY, hloop, hyields, hsteps, hlen, hvph, htitle⟩ :=
    gen_loop_wf_shape env hwf 25 1 (by simp [MAX_STEPS]) 0
      (create_initial_messages prompt) ⟨[], [], [], none, 0⟩ (by simp [MAX_STEPS])
  have hwff : wellFormed (make_api_call (env ci2)
      (append_message ms2 "user" FINAL_ANSWER_PROMPT) 300 false).result :=
    make_api_call_wf _ _ 300 false (fun a o ha => hwf ci2 a o ha)
  obtain ⟨ftt, hftt, hfok⟩ := process_step_wf_ok (env ci2)
    (append_message ms2 "user" FINAL_ANSWER_PROMPT) "Final Answer" hwff
  cases hfc : (make_api_call (env ci2)
      (append_message ms2 "user" FINAL_ANSWER_PROMPT) 300 false).result.content with
  | none => exact absurd hfc hwff.2.1
  | some fc =>
    have hv : v = ys.length := by omega
    subst hv
    refine ⟨ys, vY,
      ⟨StepPhase.final, "Step " ++ "Final Answer" ++ ": " ++ JVal.toStr ftt, fc,
        (make_api_call (env ci2)
          (append_message ms2 "user" FINAL_ANSWER_PROMPT) 300 false).result⟩,
      ?_, hsteps, hvph, ?_, rfl, ?_⟩
    · simp only [generate_response, hloop, hfok, hfc]
      rw [hyields]
      simp
    · obtain ⟨tt, h1, h2⟩ := htitle
      exact ⟨tt, h1, h2⟩
    · simp only [generate_response, hloop, hfok, hfc]

/-- Full evaluation of the first spec scenario: one STEPPING step, the
verification step, then the FINALIZING step — whose title is
`"Step Final Answer: Compute"`, not `"Final Answer"`. -/
theorem run_envOk :
    generate_response envOk "What is 2+2?" =
      ⟨[⟨StepPhase.step, "Step 1: Compute", JVal.str "2+2=4", finalResp⟩,
        ⟨StepPhase.verification, "Step 2: Compute", JVal.str "2+2=4", finalResp⟩,
        ⟨StepPhase.final, "Step Final Answer: Compute", JVal.str "2+2=4", finalResp⟩],
       [⟨300, false, finalResp, 0⟩, ⟨300, false, finalResp, 0⟩,
        ⟨300, false, finalResp, 0⟩],
       [4], some 1, 1, RunOutcome.done⟩ := by
  simp only [generate_response]
  rw [gen_loop.eq_def]
  decide

/-- Every gateway-call record accumulated by the loop either was already in
the accumulator or satisfies any property `P` enjoyed by all records
`(process_step (env c) msgs rep).1`. -/
theorem gen_loop_calls_P (env : Nat → Nat → Attempt) (P : GatewayCall → Prop)
    (hP : ∀ c msgs rep, P (process_step (env c) msgs rep).1) :
    ∀ (fuel step_count : Nat), MAX_STEPS + 1 - step_count ≤ fuel →
      ∀ callIdx messages acc, step_count ≤ MAX_STEPS →
      (∀ call ∈ acc.calls, P call) →
      ∀ call ∈ (gen_loop env callIdx messages step_count acc).acc.calls, P call := by
  intro fuel
  induction fuel with
  | zero =>
    intro s hfs c m acc hs
    exfalso
    simp only [MAX_STEPS] at hfs hs
    omega
  | succ n ih =>
    intro s hfs c m acc hs hacc
    rw [gen_loop.eq_def]
    cases hps : (process_step (env c) m (toString s)).2 with
    | error k =>
      simp only [hps, LoopRes.acc]
      intro call hcall
      rcases List.mem_append.mp hcall with h | h
      · exact hacc call h
      · rw [List.mem_singleton.mp h]; exact hP c m (toString s)
    | ok trip =>
      obtain ⟨d, t, m3⟩ := trip
      cases hc : d.content with
      | none =>
        simp only [hps, hc, LoopRes.acc]
        intro call hcall
        rcases List.mem_append.mp hcall with h | h
        · exact hacc call h
        · rw [List.mem_singleton.mp h]; exact hP c m (toString s)
      | some cv =>
        cases hna : d.next_action with
        | none =>
          simp only [hps, hc, hna, LoopRes.acc]
          intro call hcall
          rcases List.mem_append.mp hcall with h | h
          · exact hacc call h
          · rw [List.mem_singleton.mp h]; exact hP c m (toString s)
        | some na =>
          by_cases hcond : na = JVal.str "final_answer" ∨ MAX_STEPS ≤ s
          · have hboth : ∀ call ∈ acc.calls ++
                [(process_step (env c) m (toString s)).1,
                 (process_step (env (c + 1))
                   (append_message m3 "user" VERIFICATION_PROMPT)
                   (toString (s + 1))).1], P call := by
              intro call hcall
              rcases List.mem_append.mp hcall with h | h
              · exact hacc call h
              · rcases List.mem_cons.mp h with rfl | h2
                · exact hP c m (toString s)
                · rw [List.mem_singleton.mp h2]
                  exact hP (c + 1) _ (toString (s + 1))
            cases hvs : (process_step (env (c + 1))
                (append_message m3 "user" VERIFICATION_PROMPT) (toString (s + 1))).2 with
            | error k =>
              simp only [hps, hc, hna, dif_pos hcond, hvs, LoopRes.acc]
              exact hboth
            | ok vtrip =>
              obtain ⟨vd, vt, m4⟩ := vtrip
              cases hvc : vd.content with
              | none =>
                simp only [hps, hc, hna, dif_pos hcond, hvs, hvc, LoopRes.acc]
                exact hboth
              | some vcv =>
                simp only [hps, hc, hna, dif_pos hcond, hvs, hvc, LoopRes.acc]
                exact hboth
          · simp only [hps, hc, hna, dif_neg hcond]
            have hslt : s < MAX_STEPS := by
              rcases not_or.mp hcond with ⟨-, h2⟩
              omega
            refine ih (s + 1) (by omega) (c + 1) m3
              ⟨acc.yields ++ [⟨StepPhase.step, t, cv, d⟩],
               acc.calls ++ [(process_step (env c) m (toString s)).1],
               acc.stepLens ++ [m3.length], acc.verifStepCount, acc.iters + 1⟩
              (by omega) ?_
            intro call hcall
            rcases List.mem_append.mp hcall with h | h
            · exact hacc call h
            · rw [List.mem_singleton.mp h]; exact hP c m (toString s)

/-- Every gateway-call record of a whole run is a `process_step` call record
(so any property of those holds of all of them). -/
theorem generate_response_calls_P (env : Nat → Nat → Attempt) (prompt : String)
    (P : GatewayCall → Prop)
    (hP : ∀ c msgs rep, P (process_step (env c) msgs rep).1) :
    ∀ call ∈ (generate_response env prompt).calls, P call := by
  have hloopP : ∀ call ∈ (gen_loop env 0 (create_initial_messages prompt) 1
      ⟨[], [], [], none, 0⟩).acc.calls, P call :=
    gen_loop_calls_P env P hP 25 1 (by simp [MAX_STEPS]) 0
      (create_initial_messages prompt) ⟨[], [], [], none, 0⟩ (by simp [MAX_STEPS])
      (by intro call hcall; simp at hcall)
  simp only [generate_response]
  cases hr : gen_loop env 0 (create_initial_messages prompt) 1
      ⟨[], [], [], none, 0⟩ with
  | fault acc k =>
    intro call hcall
    exact hloopP call (by rw [hr]; exact hcall)
  | exit acc v ci ms =>
    have haccP : ∀ call ∈ acc.calls, P call := by
      intro call hcall
      exact hloopP call (by rw [hr]; exact hcall)
    have hfinP : ∀ call ∈ acc.calls ++
        [(process_step (env ci) (append_message ms "user" FINAL_ANSWER_PROMPT)
          "Final Answer").1], P call := by
      intro call hcall
      rcases List.mem_append.mp hcall with h | h
      · exact haccP call h
      · rw [List.mem_singleton.mp h]; exact hP ci _ "Final Answer"
    cases hfs : (process_step (env ci)
        (append_message ms "user" FINAL_ANSWER_PROMPT) "Final Answer").2 with
    | error k => simp only [hfs]; exact hfinP
    | ok ftrip =>
      obtain ⟨fd, ft, m4⟩ := ftrip
      cases hfc : fd.content with
      | none => simp only [hfs, hfc]; exact hfinP
      | some fc => simp only [hfs, hfc]; exact hfinP

/-- An environment that raises on every attempt is vacuously `StepRecord`
well-formed (it has no successful parses). -/
theorem all_raise_wellFormed (env : Nat → Nat → Attempt)
    (hr : ∀ c a, ∃ m, env c a = Attempt.raise m) : wellFormedEnv env := by
  intro c a o ho
  obtain ⟨m, hm⟩ := hr c a
  rw [hm] at ho
  exact Attempt.noConfusion ho

/-- Under an always-raising gateway, every call record of the run shows
exactly 2 sleeps and carries the synthesized `"Error"`-titled record. -/
theorem generate_response_all_raise_calls (env : Nat → Nat → Attempt)
    (prompt : String) (hr : ∀ c a, ∃ m, env c a = Attempt.raise m) :
    ∀ call ∈ (generate_response env prompt).calls,
      call.sleeps = 2 ∧ call.result.title = some (JVal.str "Error") := by
  refine generate_response_calls_P env prompt _ ?_
  intro c msgs rep
  obtain ⟨m0, h0⟩ := hr c 0
  obtain ⟨m1, h1⟩ := hr c 1
  obtain ⟨m2, h2⟩ := hr c 2
  have he := make_api_call_all_raise (env c) msgs 300 false m0 m1 m2 h0 h1 h2
  rw [process_step_call, he]
  exact ⟨rfl, rfl⟩

/-- If the first attempt of the first gateway call parses an object missing
`title` or missing `content`, the generator yields nothing and dies with the
corresponding `KeyError`; the object is not converted to an error record. -/
theorem generate_response_first_missing (env : Nat → Nat → Attempt)
    (prompt : String) (o : JObj) (h0 : env 0 0 = Attempt.ok o)
    (hmiss : o.title = none ∨ o.content = none) :
    ∃ k, (generate_response env prompt).outcome = RunOutcome.keyError k ∧
      (generate_response env prompt).yields = [] := by
  have hapi : make_api_call (env 0) (create_initial_messages prompt) 300 false =
      ⟨o, 1, 0⟩ := by
    unfold make_api_call
    rw [h0]
  cases hto : o.title with
  | none =>
    have hps : (process_step (env 0) (create_initial_messages prompt)
        (toString 1)).2 = .error "title" := by
      simp [process_step, hapi, hto]
    have hloop : gen_loop env 0 (create_initial_messages prompt) 1
        ⟨[], [], [], none, 0⟩ =
        LoopRes.fault
          ⟨[], [(process_step (env 0) (create_initial_messages prompt)
            (toString 1)).1], [], none, 1⟩ "title" := by
      rw [gen_loop.eq_def]
      simp only [hps]
      simp
    exact ⟨"title", by simp only [generate_response, hloop],
      by simp only [generate_response, hloop]⟩
  | some tt =>
    have hmc : o.content = none := by
      rcases hmiss with h | h
      · rw [hto] at h; exact Option.noConfusion h
      · exact h
    have hps : (process_step (env 0) (create_initial_messages prompt)
        (toString 1)).2 =
        .ok (o, "Step " ++ toString 1 ++ ": " ++ JVal.toStr tt,
          append_message (create_initial_messages prompt) "assistant"
            (JObj.dumps o)) := by
      simp [process_step, hapi, hto]
    have hloop : gen_loop env 0 (create_initial_messages prompt) 1
        ⟨[], [], [], none, 0⟩ =
        LoopRes.fault
          ⟨[], [(process_step (env 0) (create_initial_messages prompt)
            (toString 1)).1],
           [(append_message (create_initial_messages prompt) "assistant"
             (JObj.dumps o)).length], none, 1⟩ "content" := by
      rw [gen_loop.eq_def]
      simp only [hps, hmc]
      simp
    exact ⟨"content", by simp only [generate_response, hloop],
      by simp only [generate_response, hloop]⟩

theorem envOk_wellFormed : wellFormedEnv envOk := by
  intro c a o ho
  simp only [envOk] at ho
  injection ho with h
  subst h
  simp only [wellFormed]
  decide

theorem envCont_wellFormed : wellFormedEnv envCont := by
  intro c a o ho
  simp only [envCont] at ho
  injection ho with h
  subst h
  simp only [wellFormed]
  decide

/-- C1.  The claim says every run ends with exactly one TimedStep titled
exactly `"Final Answer"`.  The code passes the string `"Final Answer"` as the
`step_count` argument of `process_step` (cli.py line 206), so the last yield
is titled `"Step Final Answer: <title>"`: at the spec scenario input the
run completes and no yield at all is titled `"Final Answer"`.  This
contradicts the unreachable `title == "Final Answer"` branch of
`process_and_print_response` (line 228), so the code, not the claim, is at
fault. -/
theorem C1_final_title_code_behavior :
    (generate_response envOk "What is 2+2?").yields.map (fun y => y.title) =
      ["Step 1: Compute", "Step 2: Compute", "Step Final Answer: Compute"] ∧
    (∀ y ∈ (generate_response envOk "What is 2+2?").yields,
      y.title ≠ "Final Answer") ∧
    (generate_response envOk "What is 2+2?").outcome = RunOutcome.done := by
  rw [run_envOk]
  exact ⟨rfl, by decide, rfl⟩

/-- C2.  The claim says the FINALIZING gateway call uses token budget 200
with the final-answer flag set.  The code routes the final call through
`process_step`, which always calls `make_api_call(messages, 300)` with
`is_final_answer` left at its default `False` (cli.py lines 169, 206): at
the spec scenario input all three calls, the final one included, are made
with budget 300 and flag `false`. -/
theorem C2_finalizing_call_code_behavior :
    (generate_response envOk "What is 2+2?").calls.map
      (fun call => (call.max_tokens, call.is_final_answer)) =
      [(300, false), (300, false), (300, false)] ∧
    (generate_response envOk "What is 2+2?").outcome = RunOutcome.done := by
  rw [run_envOk]
  exact ⟨rfl, rfl⟩

/-- C3.  For every environment whose parsed responses honour the
`StepRecord` contract (all three keys present), the yields of every run are some
STEPPING steps, then exactly one verification step, then the FINALIZING
step: exactly one verification TimedStep, emitted strictly before the final
one, however STEPPING ended. -/
theorem C3_verification_before_final (env : Nat → Nat → Attempt)
    (prompt : String) (hwf : wellFormedEnv env) :
    ∃ ys vY fY,
      (generate_response env prompt).yields = ys ++ [vY, fY] ∧
      (∀ y ∈ ys, y.phase = StepPhase.step) ∧
      vY.phase = StepPhase.verification ∧
      fY.phase = StepPhase.final ∧
      (generate_response env prompt).outcome = RunOutcome.done := by
  obtain ⟨ys, vY, fY, h1, h2, h3, -, h5, h6⟩ :=
    generate_response_wf_shape env hwf prompt
  exact ⟨ys, vY, fY, h1, h2, h3, h5, h6⟩

theorem C3_witness :
    ∃ ys vY fY,
      (generate_response envOk "What is 2+2?").yields = ys ++ [vY, fY] ∧
      (∀ y ∈ ys, y.phase = StepPhase.step) ∧
      vY.phase = StepPhase.verification ∧
      fY.phase = StepPhase.final ∧
      (generate_response envOk "What is 2+2?").outcome = RunOutcome.done :=
  C3_verification_before_final envOk "What is 2+2?" envOk_wellFormed

/-- C4.  Whatever the gateway returns, the STEPPING loop body executes at
most 25 iterations, and `step_count` at the moment the verification prompt
is appended is at most 25. -/
theorem C4_step_cap (env : Nat → Nat → Attempt) (prompt : String) :
    (generate_response env prompt).iters ≤ 25 ∧
    (∀ v, (generate_response env prompt).verifStepCount = some v → v ≤ 25) := by
  obtain ⟨hsl, hvc, hit⟩ := generate_response_ghost env prompt
  have hb := gen_loop_bounds env 25 1 (by simp [MAX_STEPS]) 0
    (create_initial_messages prompt) ⟨[], [], [], none, 0⟩ (by simp [MAX_STEPS])
  constructor
  · rw [hit]
    refine le_trans hb.1 ?_
    simp [MAX_STEPS]
  · intro v hv
    rw [hvc] at hv
    rcases hb.2 v hv with h | h
    · exact Option.noConfusion h
    · simpa [MAX_STEPS] using h

theorem C4_witness :
    (generate_response envOk "What is 2+2?").iters ≤ 25 ∧ 1 ≤ 25 :=
  ⟨(C4_step_cap envOk "What is 2+2?").1,
   (C4_step_cap envOk "What is 2+2?").2 1 (by rw [run_envOk])⟩

/-- C5 counterexample.  The claim says the error record for a final-answer
call has `next_action` absent; in the code (cli.py line 131) the key is
present, bound to Python `None` (JSON null). -/
theorem C5_counterexample :
    ¬ ((make_api_call (fun _ => Attempt.raise "boom") [] 200 true).result.next_action
        = none) := by
  decide

/-- C5, amended.  `make_api_call` makes at most 3 attempts; a 1-second sleep
follows every failed attempt except the returning third one (`sleeps + 1 =
attempts`); after the 3rd failure it returns
`{title: "Error", content: "Failed to generate <final answer|step> after 3
attempts. Error: <message>"}` whose `next_action` is `"final_answer"` when
the purpose is a step, and is present with value `null` (Python `None`) when
the purpose is the final answer. -/
theorem C5_retry_policy_amended (oracle : Nat → Attempt)
    (messages : List ChatMessage) (max_tokens : Nat) (is_final_answer : Bool) :
    (make_api_call oracle messages max_tokens is_final_answer).attempts ≤ 3 ∧
    (make_api_call oracle messages max_tokens is_final_answer).sleeps + 1 =
      (make_api_call oracle messages max_tokens is_final_answer).attempts ∧
    (∀ m0 m1 m2, oracle 0 = .raise m0 → oracle 1 = .raise m1 →
      oracle 2 = .raise m2 →
      make_api_call oracle messages max_tokens is_final_answer =
        ⟨⟨some (JVal.str "Error"),
          some (JVal.str ("Failed to generate " ++
            (if is_final_answer then "final answer" else "step") ++
            " after 3 attempts. Error: " ++ m2)),
          if is_final_answer then some JVal.null
          else some (JVal.str "final_answer")⟩,
         3, 2⟩) := by
  refine ⟨(make_api_call_attempts oracle messages max_tokens is_final_answer).1,
    (make_api_call_attempts oracle messages max_tokens is_final_answer).2, ?_⟩
  intro m0 m1 m2 h0 h1 h2
  rw [make_api_call_all_raise oracle messages max_tokens is_final_answer
    m0 m1 m2 h0 h1 h2]
  rfl

theorem C5_witness :
    make_api_call (fun _ => Attempt.raise "boom") [] 200 true =
      ⟨⟨some (JVal.str "Error"),
        some (JVal.str
          "Failed to generate final answer after 3 attempts. Error: boom"),
        some JVal.null⟩, 3, 2⟩ := by
  rw [(C5_retry_policy_amended (fun _ => Attempt.raise "boom") [] 200 true).2.2
    "boom" "boom" "boom" rfl rfl rfl]
  decide

/-- C6 counterexample.  On the success path `make_api_call` returns the
parsed JSON unchecked: a gateway whose first attempt parses `{}` makes it
return a record with neither `title` nor `content`. -/
theorem C6_counterexample :
    (make_api_call (fun _ => Attempt.ok ⟨none, none, none⟩) [] 300 false).result.title
      = none ∧
    (make_api_call (fun _ => Attempt.ok ⟨none, none, none⟩) [] 300 false).result.content
      = none := by
  decide

/-- C6, amended.  `make_api_call` never raises past the 3rd attempt: it
always returns either the object parsed by some successful attempt —
unvalidated, possibly lacking `title` or `content` — or, when all three
attempts raise, the synthesized error record, which is well-formed. -/
theorem C6_gateway_result_amended (oracle : Nat → Attempt)
    (messages : List ChatMessage) (max_tokens : Nat) (is_final_answer : Bool) :
    (∃ a, a < 3 ∧ oracle a =
      Attempt.ok (make_api_call oracle messages max_tokens is_final_answer).result) ∨
    (∃ m, oracle 2 = Attempt.raise m ∧
      (make_api_call oracle messages max_tokens is_final_answer).result =
        error_record is_final_answer m ∧
      wellFormed (error_record is_final_answer m)) := by
  rcases make_api_call_cases oracle messages max_tokens is_final_answer with
    h | ⟨m, hm, he⟩
  · exact Or.inl h
  · exact Or.inr ⟨m, hm, by rw [he], error_record_wellFormed is_final_answer m⟩

/-- C7 counterexample.  At the spec scenario input STEPPING performs one
iteration and the conversation then holds 4 messages, not `3 + 2*1 = 5`:
STEPPING appends exactly one (assistant) message per iteration. -/
theorem C7_counterexample :
    (generate_response envOk "What is 2+2?").stepLens = [4] ∧
    (4 : Nat) ≠ 3 + 2 * 1 := by
  rw [run_envOk]
  exact ⟨rfl, by decide⟩

/-- C7, amended.  After the N-th STEPPING iteration the conversation holds
exactly `3 + N` messages (the recorded length after iteration `i+1`,
0-indexed entry `i`, is `3 + (i + 1)`). -/
theorem C7_conversation_growth_amended (env : Nat → Nat → Attempt)
    (prompt : String) :
    ∃ n, (generate_response env prompt).stepLens =
      (List.range n).map (fun i => 3 + (i + 1)) := by
  obtain ⟨hsl, -, -⟩ := generate_response_ghost env prompt
  obtain ⟨n, hn⟩ := gen_loop_stepLens env 25 1 (by simp [MAX_STEPS]) 0
    (create_initial_messages prompt) ⟨[], [], [], none, 0⟩ (by simp [MAX_STEPS])
  refine ⟨n, ?_⟩
  rw [hsl, hn]
  have h3 : (create_initial_messages prompt).length = 3 := rfl
  simp only [h3, List.nil_append]
  exact List.map_congr_left (fun a _ => by omega)

/-- C8.  If the network raises on every attempt of every invocation, every
gateway call of the run performs exactly 2 one-second sleeps and returns the
`"Error"`-titled record, and the run still completes with its last yield
being the FINALIZING step (the synthesized `next_action = "final_answer"`
makes the loop leave STEPPING). -/
theorem C8_all_raise_behavior (env : Nat → Nat → Attempt) (prompt : String)
    (hr : ∀ c a, ∃ m, env c a = Attempt.raise m) :
    (∀ call ∈ (generate_response env prompt).calls,
      call.sleeps = 2 ∧ call.result.title = some (JVal.str "Error")) ∧
    (generate_response env prompt).outcome = RunOutcome.done ∧
    (∃ ys fY, (generate_response env prompt).yields = ys ++ [fY] ∧
      fY.phase = StepPhase.final) := by
  refine ⟨generate_response_all_raise_calls env prompt hr, ?_, ?_⟩
  · obtain ⟨-, -, -, -, -, -, -, -, h6⟩ :=
      generate_response_wf_shape env (all_raise_wellFormed env hr) prompt
    exact h6
  · obtain ⟨ys, vY, fY, h1, -, -, -, h5, -⟩ :=
      generate_response_wf_shape env (all_raise_wellFormed env hr) prompt
    exact ⟨ys ++ [vY], fY, by rw [h1]; simp, h5⟩

theorem C8_witness :
    (∀ call ∈ (generate_response envRaise "What is 2+2?").calls,
      call.sleeps = 2 ∧ call.result.title = some (JVal.str "Error")) ∧
    (generate_response envRaise "What is 2+2?").outcome = RunOutcome.done ∧
    (∃ ys fY, (generate_response envRaise "What is 2+2?").yields = ys ++ [fY] ∧
      fY.phase = StepPhase.final) :=
  C8_all_raise_behavior envRaise "What is 2+2?" (fun _ _ => ⟨"boom", rfl⟩)

/-- C9.  If the first attempt of the first gateway call parses an object lacking
`title` or lacking `content`, the run yields nothing and ends in a
`KeyError` on that key, which propagates out of the generator: it is not
converted to an error record nor defaulted. -/
theorem C9_missing_key_fault (env : Nat → Nat → Attempt) (prompt : String)
    (o : JObj) (h0 : env 0 0 = Attempt.ok o)
    (hmiss : o.title = none ∨ o.content = none) :
    ∃ k, (generate_response env prompt).outcome = RunOutcome.keyError k ∧
      (generate_response env prompt).yields = [] :=
  generate_response_first_missing env prompt o h0 hmiss

theorem C9_witness :
    ∃ k, (generate_response envNoTitle "q").outcome = RunOutcome.keyError k ∧
      (generate_response envNoTitle "q").yields = [] :=
  C9_missing_key_fault envNoTitle "q"
    ⟨none, some (.str "x"), some (.str "continue")⟩ rfl (Or.inl rfl)

/-- C10.  In a completed contract-honouring run whose STEPPING phase
performed `k` iterations (equivalently, yielded `k` step TimedSteps), the
verification TimedStep is titled `"Step <k+1>: <title of the verification
response>"`: it is numbered as an ordinary step one past the last, with no
distinct verification marker (a cap-terminated run thus shows `"Step 26:
..."`). -/
theorem C10_verification_step_numbering (env : Nat → Nat → Attempt)
    (prompt : String) (hwf : wellFormedEnv env) :
    ∀ y ∈ (generate_response env prompt).yields,
      y.phase = StepPhase.verification →
      ∃ tt, y.data.title = some tt ∧
        y.title = "Step " ++
          toString
            (((generate_response env prompt).yields.filter
              (fun z => decide (z.phase = StepPhase.step))).length + 1) ++
          ": " ++ JVal.toStr tt := by
  obtain ⟨ys, vY, fY, h1, h2, h3, h4, h5, -⟩ :=
    generate_response_wf_shape env hwf prompt
  rw [h1]
  have hfilter : ((ys ++ [vY, fY]).filter
      (fun z => decide (z.phase = StepPhase.step))).length = ys.length := by
    rw [List.filter_append]
    rw [List.filter_eq_self.mpr (fun y hy => by simp [h2 y hy])]
    have hvf : [vY, fY].filter (fun z => decide (z.phase = StepPhase.step)) = [] := by
      simp [List.filter_cons, h3, h5]
    rw [hvf]
    simp
  rw [hfilter]
  intro y hy hyv
  rcases List.mem_append.mp hy with hys | hvf
  · have hstep := h2 y hys
    rw [hyv] at hstep
    exact absurd hstep (by decide)
  · rcases List.mem_cons.mp hvf with rfl | hfy
    · exact h4
    · have hyfY := List.mem_singleton.mp hfy
      subst hyfY
      rw [hyv] at h5
      exact absurd h5 (by decide)

theorem C10_witness :
    ∃ tt,
      (⟨StepPhase.verification, "Step 2: Compute", JVal.str "2+2=4",
        finalResp⟩ : YieldRec).data.title = some tt ∧
      (⟨StepPhase.verification, "Step 2: Compute", JVal.str "2+2=4",
        finalResp⟩ : YieldRec).title =
        "Step " ++
          toString
            (((generate_response envOk "What is 2+2?").yields.filter
              (fun z => decide (z.phase = StepPhase.step))).length + 1) ++
          ": " ++ JVal.toStr tt :=
  C10_verification_step_numbering envOk "What is 2+2?" envOk_wellFormed
    ⟨StepPhase.verification, "Step 2: Compute", JVal.str "2+2=4", finalResp⟩
    (by rw [run_envOk]; decide) rfl
